import Mathlib

/-
Shallow embedding of `crates/epaint/src/text/font.rs` (egui's per-face glyph
metrics cache, rasterization cache and multi-face facade).

Conventions of the embedding:
* `f32` values are modelled as exact rationals (`ℚ`); the claims under study
  are about the structure of the computations (which scale value is used
  where, what is cached, what panics), not about rounding error of binary
  floating point.
* Rust panics (`panic!`, `assert!`) are modelled by `Except PanicKind`.
* `ahash::HashMap` is modelled as an association list where insertion conses
  in front and lookup takes the first match (same observable behavior as an
  overwriting hash map).
* The `ab_glyph` font resource and the `TextureAtlas` are external
  collaborators; they are modelled as records of abstract (but executable)
  functions.  The atlas carries an allocation counter so that "performs no
  new atlas allocation" is observable.
-/

namespace Egui

/-- Rust `f32::round` (round half away from zero), on exact rationals. -/
def rustRound (x : ℚ) : ℚ :=
  if 0 ≤ x then ((⌊x + 1/2⌋ : ℤ) : ℚ) else -((⌊-x + 1/2⌋ : ℤ) : ℚ)

/-- Modelled from the spec: `emath::GuiRounding::round_ui` ("rounded to the
UI's canonical rounding granularity"); the granularity is taken as 1/32.
The crate `emath` is not part of the sources under study and none of the
claims depends on the exact granularity. -/
def roundUi (x : ℚ) : ℚ := rustRound (x * 32) / 32

/-- First-match lookup in an association list (models `HashMap::get`). -/
def assocLookup {α β : Type} [DecidableEq α] (k : α) : List (α × β) → Option β
  | [] => none
  | (a, b) :: rest => if a = k then some b else assocLookup k rest

/-- Membership test on a list of characters (models `matches!` / `contains`). -/
def charIn (c : Char) : List Char → Bool
  | [] => false
  | d :: rest => if d = c then true else charIn c rest

/-- Membership test on a list of strings (models `contains`). -/
def strIn (s : String) : List String → Bool
  | [] => false
  | t :: rest => if t = s then true else strIn s rest

/-- `epaint::text::FontTweak` (consumed read-only; fields per the spec §6). -/
structure FontTweak where
  scale : ℚ
  y_offset_factor : ℚ
  y_offset : ℚ
deriving DecidableEq

/-- Pixel bounding box of an outlined glyph, as `allocate_glyph` consumes it:
`min_x`/`min_y` are `bb.min.x`/`bb.min.y`, and `width`/`height` are
`bb.width() as usize` / `bb.height() as usize` (already cast to integers). -/
structure OutlineBounds where
  min_x : ℚ
  min_y : ℚ
  width : ℕ
  height : ℕ

/-- The external `ab_glyph` outline-font resource (spec §6): `units_per_em`
returns `none` when the font unit size is outside the expected range,
`glyph_id` returns 0 for unsupported characters, `outline` returns the pixel
bounds of a glyph outlined at a given pixel scale (`none` when the glyph has
no outline). -/
structure FontData where
  units_per_em : Option ℚ
  height_unscaled : ℚ
  ascent_unscaled : ℚ
  descent_unscaled : ℚ
  line_gap_unscaled : ℚ
  glyph_id : Char → ℕ
  h_advance_unscaled : ℕ → ℚ
  kern_unscaled : ℕ → ℕ → ℚ
  outline : ℕ → ℚ → Option OutlineBounds

/-- `GlyphInfo`: glyph id (`ab_glyph::GlyphId` as ℕ), unscaled advance width
(`OrderedFloat<f32>` as ℚ), visibility flag. -/
structure GlyphInfo where
  id : ℕ
  advance_width_unscaled : ℚ
  visible : Bool
deriving DecidableEq

/-- `impl Default for GlyphInfo`: "Basically a zero-width space". -/
def GlyphInfo.default : GlyphInfo :=
  { id := 0, advance_width_unscaled := 0, visible := false }

/-- `UvRect`: offset and size in points (`Vec2` as ℚ × ℚ), `min`/`max` texel
coordinates stored as `u16` (values kept as ℕ, always reduced mod 2^16 at
the `as u16` casts in `allocate_glyph`). -/
structure UvRect where
  offset : ℚ × ℚ
  size : ℚ × ℚ
  min : ℕ × ℕ
  max : ℕ × ℕ
deriving DecidableEq

/-- `UvRect::default()`. -/
def UvRect.default : UvRect :=
  { offset := (0, 0), size := (0, 0), min := (0, 0), max := (0, 0) }

/-- `UvRect::is_nothing`. -/
def UvRect.is_nothing (r : UvRect) : Bool :=
  decide (r.min = r.max)

/-- `GlyphAllocation`. -/
structure GlyphAllocation where
  id : ℕ
  advance_width : ℚ
  uv_rect : UvRect
deriving DecidableEq

/-- `GlyphAllocation::default()`. -/
def GlyphAllocation.default : GlyphAllocation :=
  { id := 0, advance_width := 0, uv_rect := UvRect.default }

/-- The external `TextureAtlas`, abstracted: `place n dims` is the position
the atlas hands out for its `n`-th allocation; `counter` counts allocations
performed so far. -/
structure Atlas where
  counter : ℕ
  place : ℕ → ℕ × ℕ → ℕ × ℕ

/-- `TextureAtlas::allocate`: returns the placement position and the atlas
after the allocation (counter bumped). -/
def Atlas.allocate (atlas : Atlas) (size : ℕ × ℕ) : (ℕ × ℕ) × Atlas :=
  (atlas.place atlas.counter size, { atlas with counter := atlas.counter + 1 })

/-- `FontImpl`: one face with its two caches. -/
structure FontImpl where
  name : String
  ab_glyph_font : FontData
  tweak : FontTweak
  glyph_info_cache : List (Char × GlyphInfo)
  glyph_alloc_cache : List ((GlyphInfo × ℚ) × GlyphAllocation)

/-- `FontImpl::new`. -/
def FontImpl.new (name : String) (font : FontData) (tweak : FontTweak) : FontImpl :=
  { name := name, ab_glyph_font := font, tweak := tweak,
    glyph_info_cache := [], glyph_alloc_cache := [] }

/-- Modelled from the spec: `FontDefinitions::builtin_font_names` is not part
of the sources under study; the spec only says the denylist is gated on "a
fixed set of built-in face names" (the source comments name `Ubuntu-Light`).
No claim depends on the exact contents of this list. -/
def builtin_font_names : List String :=
  ["Hack", "Ubuntu-Light", "NotoEmoji-Regular", "emoji-icon-font"]

/-- The fixed denylist of `FontImpl::ignore_character` (font.rs:139-146). -/
def ignored_chars : List Char :=
  ['\u534D', '\u5350', '\uE0FF', '\uEFFD', '\uF0FF', '\uF200']

/-- `FontImpl::ignore_character`: the early `return false` for non-builtin
names followed by `matches!` is flattened into a conjunction. -/
def ignore_character (fi : FontImpl) (c : Char) : Bool :=
  strIn fi.name builtin_font_names && charIn c ignored_chars

/-- The fixed set of `invisible_char` (font.rs:487-527): `'\r'` plus the
format-control code points of the `matches!`. -/
def invisible_chars : List Char :=
  ['\r',
   '\u200B', '\u200C', '\u200D', '\u200E', '\u200F',
   '\u202A', '\u202B', '\u202C', '\u202D', '\u202E',
   '\u2060', '\u2061', '\u2062', '\u2063', '\u2064',
   '\u2066', '\u2067', '\u2068', '\u2069',
   '\u206A', '\u206B', '\u206C', '\u206D', '\u206E', '\u206F',
   '\uFEFF']

/-- `invisible_char` (font.rs:487-527). -/
def invisible_char (c : Char) : Bool :=
  charIn c invisible_chars

/-- Modelled from the spec: `crate::text::TAB_SIZE` is not part of the
sources under study; the spec calls it "a fixed tab-stop multiple
(implementation constant, e.g. 4)". -/
def TAB_SIZE : ℚ := 4

/-- `self.glyph_info_cache.insert(c, glyph_info)`. -/
def insertInfo (fi : FontImpl) (c : Char) (g : GlyphInfo) : FontImpl :=
  { fi with glyph_info_cache := (c, g) :: fi.glyph_info_cache }

/-- The tail of `FontImpl::glyph_info` after the cache probe, the
`ignore_character` test and the tab / thin-space special cases
(font.rs:199-218): the `invisible_char` branch and the "add new character"
branch. -/
def glyph_info_rest (fi : FontImpl) (c : Char) : Option GlyphInfo × FontImpl :=
  if invisible_char c then
    let glyph_info := GlyphInfo.default
    (some glyph_info, insertInfo fi c glyph_info)
  else
    let glyph_id := fi.ab_glyph_font.glyph_id c
    if glyph_id = 0 then
      (none, fi) -- unsupported character
    else
      let glyph_info : GlyphInfo :=
        { id := glyph_id,
          advance_width_unscaled := fi.ab_glyph_font.h_advance_unscaled glyph_id,
          visible := true }
      (some glyph_info, insertInfo fi c glyph_info)

/-- The recursive call `self.glyph_info(' ')` made by the tab and thin-space
branches, unfolded at the character `' '`: a space hits neither the
tab / thin-space special cases nor the `invisible_char` set, so the
recursive call is exactly the cache probe, the `ignore_character` test and
`glyph_info_rest`.  (`glyph_info_space_eq` below proves that `glyph_info`
at `' '` agrees with this unfolding.) -/
def space_info (fi : FontImpl) : Option GlyphInfo × FontImpl :=
  match assocLookup ' ' fi.glyph_info_cache with
  | some glyph_info => (some glyph_info, fi)
  | none =>
    if ignore_character fi ' ' then (none, fi)
    else glyph_info_rest fi ' '

/-- `FontImpl::glyph_info` (font.rs:158-219).  When the tab or thin-space
branch fails to resolve a space character, control falls through; since a
tab is not a thin space and neither is in the `invisible_char` set, the
fall-through lands in the "add new character" code, i.e. `glyph_info_rest`. -/
def glyph_info (fi : FontImpl) (c : Char) : Option GlyphInfo × FontImpl :=
  match assocLookup c fi.glyph_info_cache with
  | some glyph_info => (some glyph_info, fi)
  | none =>
    if ignore_character fi c then
      (none, fi) -- these will result in the replacement character when rendering
    else if c = '\t' then
      match space_info fi with
      | (some space, fi1) =>
        let glyph_info : GlyphInfo :=
          { space with
            advance_width_unscaled := TAB_SIZE * space.advance_width_unscaled }
        (some glyph_info, insertInfo fi1 c glyph_info)
      | (none, fi1) => glyph_info_rest fi1 c
    else if c = '\u2009' then
      -- Thin space, often used as thousands deliminator.
      match space_info fi with
      | (some space, fi1) =>
        let em := fi1.ab_glyph_font.units_per_em.getD 1
        let advance_width := min (em / 6) (space.advance_width_unscaled * (1/2))
        let glyph_info : GlyphInfo :=
          { space with advance_width_unscaled := advance_width }
        (some glyph_info, insertInfo fi1 c glyph_info)
      | (none, fi1) => glyph_info_rest fi1 c
    else
      glyph_info_rest fi c

/-- The two ways the code under study can terminate the program. -/
inductive PanicKind where
  | unitsPerEmOutOfRange
  | glyphIdZeroAssert
deriving DecidableEq

deriving instance DecidableEq for Except

/-- `FontExt::pt_scale_factor` (font.rs:109-115): panics when the font
reports an out-of-range `units_per_em`. -/
def pt_scale_factor (f : FontData) (scale : ℚ) : Except PanicKind ℚ :=
  match f.units_per_em with
  | none => .error .unitsPerEmOutOfRange
  | some units_per_em =>
    let font_scaling := f.height_unscaled / units_per_em
    .ok (scale * font_scaling)

/-- The `PxScale` at which `FontImpl::pair_kerning` looks the kerning up
(font.rs:231-232): the `scale` field of
`pt_scaled((font_size * tweak.scale * pixels_per_point).round())`,
which is `pt_scale_factor` of the rounded point size. -/
def pair_kerning_px_scale (fi : FontImpl) (font_size pixels_per_point : ℚ) :
    Except PanicKind ℚ :=
  pt_scale_factor fi.ab_glyph_font
    (rustRound (font_size * fi.tweak.scale * pixels_per_point))

/-- The rounded pixel scale `FontImpl::allocate_glyph` uses as raster-cache
key and rasterization scale (font.rs:267-270):
`pt_scale_factor(font_size * tweak.scale * pixels_per_point).round()`. -/
def allocate_glyph_px_scale (fi : FontImpl) (font_size pixels_per_point : ℚ) :
    Except PanicKind ℚ :=
  (pt_scale_factor fi.ab_glyph_font
    (font_size * fi.tweak.scale * pixels_per_point)).map rustRound

/-- `FontImpl::pair_kerning` (font.rs:222-235).  A `PxScaleFont` with scale
`s` kerns at `s / height_unscaled * kern_unscaled` (the `ab_glyph`
scale-factor semantics); the result is divided by `pixels_per_point`. -/
def pair_kerning (fi : FontImpl) (last_glyph_id glyph_id : ℕ)
    (font_size pixels_per_point : ℚ) : Except PanicKind ℚ :=
  (pair_kerning_px_scale fi font_size pixels_per_point).map fun s =>
    (s / fi.ab_glyph_font.height_unscaled
      * fi.ab_glyph_font.kern_unscaled last_glyph_id glyph_id)
      / pixels_per_point

/-- `FontImpl::row_height` (font.rs:241-245): ascent, descent and line gap of
`pt_scaled(font_size)`, each rounded with `round_ui`. -/
def row_height (fi : FontImpl) (font_size : ℚ) : Except PanicKind ℚ :=
  (pt_scale_factor fi.ab_glyph_font font_size).map fun s =>
    let k := s / fi.ab_glyph_font.height_unscaled
    roundUi (k * fi.ab_glyph_font.ascent_unscaled)
      - roundUi (k * fi.ab_glyph_font.descent_unscaled)
      + roundUi (k * fi.ab_glyph_font.line_gap_unscaled)

/-- `FontImpl::ascent` (font.rs:251-253). -/
def ascent (fi : FontImpl) (font_size : ℚ) : Except PanicKind ℚ :=
  (pt_scale_factor fi.ab_glyph_font font_size).map fun s =>
    roundUi (s / fi.ab_glyph_font.height_unscaled * fi.ab_glyph_font.ascent_unscaled)

/-- `FontImpl::allocate_glyph` (font.rs:255-345).  `pt_scale_factor` is
unfolded at its two call sites (the `scale` computation and the
`logically_scaled` font used for the centering correction) so that the
`units_per_em` panic is matched once at the top; `allocate_glyph_px_scale_eq`
below re-states the `scale` value through `allocate_glyph_px_scale`.
The `u16` casts of the atlas coordinates are `% 2 ^ 16`. -/
def allocate_glyph (fi : FontImpl) (glyph_info : GlyphInfo) (atlas : Atlas)
    (font_size pixels_per_point : ℚ) :
    Except PanicKind (GlyphAllocation × FontImpl × Atlas) :=
  if glyph_info.visible = false then
    .ok (GlyphAllocation.default, fi, atlas)
  else
    match fi.ab_glyph_font.units_per_em with
    | none => .error .unitsPerEmOutOfRange
    | some units_per_em =>
      let font_scaling := fi.ab_glyph_font.height_unscaled / units_per_em
      -- Round to an even number of physical pixels to get even kerning.
      let scale := rustRound (font_size * fi.tweak.scale * pixels_per_point * font_scaling)
      match assocLookup (glyph_info, scale) fi.glyph_alloc_cache with
      | some glyph_alloc => .ok (glyph_alloc, fi, atlas)
      | none =>
        if glyph_info.id = 0 then
          .error .glyphIdZeroAssert -- assert!(glyph_info.id.0 != 0)
        else
          let y_offset_in_points :=
            let logically_scaled_scale := font_size * pixels_per_point * font_scaling
            let scale_in_points := scale / pixels_per_point
            let y_offset_points :=
              roundUi (scale_in_points * fi.tweak.y_offset_factor + fi.tweak.y_offset)
            -- Center scaled glyphs properly:
            let k := logically_scaled_scale / fi.ab_glyph_font.height_unscaled
            let height :=
              roundUi (k * fi.ab_glyph_font.ascent_unscaled / pixels_per_point)
                + roundUi (k * fi.ab_glyph_font.descent_unscaled / pixels_per_point)
            let y_offset_points :=
              y_offset_points - (1 - fi.tweak.scale) * (1/2) * height
            -- Round to closest pixel:
            rustRound (y_offset_points * pixels_per_point) / pixels_per_point
          let uv_atlas : UvRect × Atlas :=
            match fi.ab_glyph_font.outline glyph_info.id scale with
            | none => (UvRect.default, atlas)
            | some bb =>
              if bb.width = 0 ∨ bb.height = 0 then
                (UvRect.default, atlas)
              else
                let pa := atlas.allocate (bb.width, bb.height)
                let glyph_pos := pa.1
                ({ offset := (bb.min_x / pixels_per_point,
                              bb.min_y / pixels_per_point + y_offset_in_points),
                   size := ((bb.width : ℚ) / pixels_per_point,
                            (bb.height : ℚ) / pixels_per_point),
                   min := (glyph_pos.1 % 2 ^ 16, glyph_pos.2 % 2 ^ 16),
                   max := ((glyph_pos.1 + bb.width) % 2 ^ 16,
                           (glyph_pos.2 + bb.height) % 2 ^ 16) },
                 pa.2)
          let allocation : GlyphAllocation :=
            { id := glyph_info.id,
              advance_width :=
                glyph_info.advance_width_unscaled * scale
                  / fi.ab_glyph_font.height_unscaled / pixels_per_point,
              uv_rect := uv_atlas.1 }
          .ok (allocation,
               { fi with glyph_alloc_cache :=
                   ((glyph_info, scale), allocation) :: fi.glyph_alloc_cache },
               uv_atlas.2)

/-
Concrete instances used by witnesses and counterexamples.
-/

/-- A well-behaved test face: `units_per_em = 1000 = height_unscaled`, a
space glyph (id 3, unscaled advance 500) and a letter glyph (id 7, unscaled
advance 600, with an outline of 10×12 px). -/
def exFont : FontData :=
  { units_per_em := some 1000,
    height_unscaled := 1000,
    ascent_unscaled := 800,
    descent_unscaled := -200,
    line_gap_unscaled := 0,
    glyph_id := fun c => if c = ' ' then 3 else if c = 'A' then 7 else 0,
    h_advance_unscaled := fun i => if i = 3 then 500 else if i = 7 then 600 else 0,
    kern_unscaled := fun _ _ => 10,
    outline := fun i _ =>
      if i = 7 then some { min_x := 1, min_y := -2, width := 10, height := 12 } else none }

/-- The identity tweak. -/
def exTweak : FontTweak := { scale := 1, y_offset_factor := 0, y_offset := 0 }

/-- A fresh `FontImpl` over `exFont`. -/
def exFI : FontImpl := FontImpl.new "Test" exFont exTweak

/-- A face whose `height_unscaled` (2000) differs from its `units_per_em`
(1000), exposing the `font_scaling` factor in the scale computations. -/
def exFont2 : FontData :=
  { exFont with height_unscaled := 2000 }

/-- A fresh `FontImpl` over `exFont2`. -/
def exFI2 : FontImpl := FontImpl.new "Test2" exFont2 exTweak

/-- A face reporting an out-of-range `units_per_em`. -/
def exFontNoEm : FontData :=
  { exFont with units_per_em := none }

/-- A fresh `FontImpl` over `exFontNoEm`. -/
def exFINoEm : FontImpl := FontImpl.new "NoEm" exFontNoEm exTweak

/-- A face that maps no character at all. -/
def exFontUnmapped : FontData :=
  { exFont with glyph_id := fun _ => 0 }

/-- A fresh `FontImpl` over `exFontUnmapped`. -/
def exFIUnmapped : FontImpl := FontImpl.new "Unmapped" exFontUnmapped exTweak

/-- An atlas that places every allocation at the origin. -/
def exAtlas : Atlas := { counter := 0, place := fun _ _ => (0, 0) }

/-- An atlas whose placements sit near the `u16` limit, so that
`position + dimension` exceeds 65535. -/
def wrapAtlas : Atlas := { counter := 0, place := fun _ _ => (65530, 2) }

/-- The glyph info `exFont` resolves for `'A'`. -/
def exGiA : GlyphInfo := { id := 7, advance_width_unscaled := 600, visible := true }

/-- The glyph info `exFont` resolves for the space character. -/
def exGiSpace : GlyphInfo := { id := 3, advance_width_unscaled := 500, visible := true }

/-- A stored allocation used to exercise the raster-cache hit path. -/
def exAllocA : GlyphAllocation :=
  { id := 7, advance_width := 48/5, uv_rect := UvRect.default }

/-- `exFI` with `exAllocA` already stored under the key `(exGiA, 16)`. -/
def exFIC3 : FontImpl := { exFI with glyph_alloc_cache := [((exGiA, 16), exAllocA)] }

/-- The per-face character cache only ever holds identities produced by
`glyph_info`; this invariant captures the part of that fact the claims rely
on: a cached identity marked visible has a nonzero id. -/
def goodCache (fi : FontImpl) : Prop :=
  ∀ p ∈ fi.glyph_info_cache, p.2.visible = true → p.2.id ≠ 0

/-
Helper lemmas.
-/

theorem charIn_mem {c : Char} : ∀ {l : List Char}, charIn c l = true → c ∈ l := by
  intro l
  induction l with
  | nil => intro h; simp [charIn] at h
  | cons d rest ih =>
    intro h
    simp only [charIn] at h
    by_cases hdc : d = c
    · subst hdc; exact List.mem_cons_self _ _
    · rw [if_neg hdc] at h
      exact List.mem_cons_of_mem _ (ih h)

theorem assocLookup_mem {α β : Type} [DecidableEq α] {k : α} {v : β} :
    ∀ {l : List (α × β)}, assocLookup k l = some v → (k, v) ∈ l := by
  intro l
  induction l with
  | nil => intro h; simp [assocLookup] at h
  | cons p rest ih =>
    intro h
    obtain ⟨a, b⟩ := p
    simp only [assocLookup] at h
    by_cases hak : a = k
    · subst hak
      rw [if_pos rfl] at h
      injection h with hbv
      subst hbv
      exact List.mem_cons_self _ _
    · rw [if_neg hak] at h
      exact List.mem_cons_of_mem _ (ih h)

theorem ignore_character_of_not_denylisted {fi : FontImpl} {c : Char}
    (h : charIn c ignored_chars = false) : ignore_character fi c = false := by
  simp [ignore_character, h]

theorem invisible_props {c : Char} (h : invisible_char c = true) :
    charIn c ignored_chars = false ∧ c ≠ '\t' ∧ c ≠ ' ' := by
  have hm : c ∈ invisible_chars := charIn_mem (by simpa [invisible_char] using h)
  fin_cases hm <;> exact ⟨by decide, by decide, by decide⟩

theorem glyph_info_rest_none {fi fi1 : FontImpl} {c : Char}
    (h : glyph_info_rest fi c = (none, fi1)) : fi1 = fi := by
  unfold glyph_info_rest at h
  dsimp only [] at h
  split at h
  · simp at h
  · split at h
    · simp only [Prod.mk.injEq, true_and] at h
      exact h.symm
    · simp at h

theorem glyph_info_rest_some_lookup {fi fi1 : FontImpl} {c : Char} {g : GlyphInfo}
    (h : glyph_info_rest fi c = (some g, fi1)) :
    assocLookup c fi1.glyph_info_cache = some g := by
  unfold glyph_info_rest at h
  dsimp only [] at h
  split at h
  · obtain ⟨hg, hfi⟩ := Prod.mk.injEq .. ▸ h
    injection hg with hg
    subst hg
    rw [← hfi]
    simp [insertInfo, assocLookup]
  · split at h
    · simp at h
    · obtain ⟨hg, hfi⟩ := Prod.mk.injEq .. ▸ h
      injection hg with hg
      subst hg
      rw [← hfi]
      simp [insertInfo, assocLookup]

theorem glyph_info_rest_good {fi fi1 : FontImpl} {c : Char} {g : GlyphInfo}
    (h : glyph_info_rest fi c = (some g, fi1)) (hv : g.visible = true) :
    g.id ≠ 0 := by
  unfold glyph_info_rest at h
  dsimp only [] at h
  split at h
  · obtain ⟨hg, _⟩ := Prod.mk.injEq .. ▸ h
    injection hg with hg
    subst hg
    simp [GlyphInfo.default] at hv
  · split at h
    · simp at h
    · obtain ⟨hg, _⟩ := Prod.mk.injEq .. ▸ h
      injection hg with hg
      subst hg
      simpa using ‹¬fi.ab_glyph_font.glyph_id c = 0›

theorem glyph_info_rest_font (fi : FontImpl) (c : Char) :
    ((glyph_info_rest fi c).2).ab_glyph_font = fi.ab_glyph_font ∧
    ((glyph_info_rest fi c).2).name = fi.name ∧
    ((glyph_info_rest fi c).2).tweak = fi.tweak ∧
    ((glyph_info_rest fi c).2).glyph_alloc_cache = fi.glyph_alloc_cache := by
  unfold glyph_info_rest insertInfo
  dsimp only []
  split
  · exact ⟨rfl, rfl, rfl, rfl⟩
  · split
    · exact ⟨rfl, rfl, rfl, rfl⟩
    · exact ⟨rfl, rfl, rfl, rfl⟩

theorem space_info_font (fi : FontImpl) :
    ((space_info fi).2).ab_glyph_font = fi.ab_glyph_font ∧
    ((space_info fi).2).name = fi.name ∧
    ((space_info fi).2).tweak = fi.tweak ∧
    ((space_info fi).2).glyph_alloc_cache = fi.glyph_alloc_cache := by
  unfold space_info
  split
  · exact ⟨rfl, rfl, rfl, rfl⟩
  · split
    · exact ⟨rfl, rfl, rfl, rfl⟩
    · exact glyph_info_rest_font fi ' '

theorem space_info_none {fi fi1 : FontImpl} (h : space_info fi = (none, fi1)) :
    fi1 = fi := by
  unfold space_info at h
  split at h
  · simp at h
  · split at h
    · simp only [Prod.mk.injEq, true_and] at h
      exact h.symm
    · exact glyph_info_rest_none h

theorem space_info_some_lookup {fi fi1 : FontImpl} {s : GlyphInfo}
    (h : space_info fi = (some s, fi1)) :
    assocLookup ' ' fi1.glyph_info_cache = some s := by
  unfold space_info at h
  split at h
  · rename_i g heq
    obtain ⟨hg, hfi⟩ := Prod.mk.injEq .. ▸ h
    injection hg with hg
    subst hg
    rw [← hfi]
    exact heq
  · split at h
    · simp at h
    · exact glyph_info_rest_some_lookup h

theorem space_info_good {fi fi1 : FontImpl} {s : GlyphInfo}
    (hgood : goodCache fi) (h : space_info fi = (some s, fi1))
    (hv : s.visible = true) : s.id ≠ 0 := by
  unfold space_info at h
  split at h
  · rename_i g heq
    obtain ⟨hg, _⟩ := Prod.mk.injEq .. ▸ h
    injection hg with hg
    subst hg
    exact hgood _ (assocLookup_mem heq) hv
  · split at h
    · simp at h
    · exact glyph_info_rest_good h hv

theorem glyph_info_space_eq (fi : FontImpl) :
    glyph_info fi ' ' = space_info fi := by
  unfold glyph_info space_info
  cases h : assocLookup ' ' fi.glyph_info_cache with
  | some g => rfl
  | none =>
    by_cases hig : ignore_character fi ' '
    · simp [hig]
    · simp [hig]

/-
Claim theorems.
-/

/-- C3: once an allocation is stored in the raster cache for a given
(identity, rounded scale) key, any `allocate_glyph` call on the same face
that computes that exact key returns the stored allocation bit-identically
and performs no new atlas allocation and no re-rasterization: the face state
and the atlas are returned unchanged. -/
theorem C3_raster_cache_stability
    (fi : FontImpl) (gi : GlyphInfo) (atlas : Atlas)
    (font_size pixels_per_point u : ℚ) (a : GlyphAllocation)
    (hv : gi.visible = true)
    (hu : fi.ab_glyph_font.units_per_em = some u)
    (ha : assocLookup (gi, rustRound (font_size * fi.tweak.scale * pixels_per_point *
            (fi.ab_glyph_font.height_unscaled / u))) fi.glyph_alloc_cache = some a) :
    allocate_glyph fi gi atlas font_size pixels_per_point = .ok (a, fi, atlas) := by
  unfold allocate_glyph
  rw [hv]
  simp only [Bool.true_eq_false, if_false, hu]
  rw [ha]

unseal Rat.mul Rat.inv Rat.add Rat.sub in
theorem C3_raster_cache_stability_witness :
    exGiA.visible = true ∧
    exFIC3.ab_glyph_font.units_per_em = some 1000 ∧
    assocLookup (exGiA, rustRound (16 * exFIC3.tweak.scale * 1 *
        (exFIC3.ab_glyph_font.height_unscaled / 1000))) exFIC3.glyph_alloc_cache
      = some exAllocA ∧
    allocate_glyph exFIC3 exGiA exAtlas 16 1 = .ok (exAllocA, exFIC3, exAtlas) :=
  ⟨rfl, rfl, by decide,
   C3_raster_cache_stability exFIC3 exGiA exAtlas 16 1 1000 exAllocA rfl rfl (by decide)⟩

/-- C4: every character of the fixed invisible/format-control set resolves to
the default glyph info (identity 0, advance 0, invisible), and
`allocate_glyph` on any invisible identity returns the default
nothing-allocation leaving the raster cache, the character cache and the
atlas untouched. -/
theorem C4_invisible_char_law (fi : FontImpl) (c : Char)
    (hinv : invisible_char c = true)
    (hc : assocLookup c fi.glyph_info_cache = none) :
    glyph_info fi c = (some GlyphInfo.default, insertInfo fi c GlyphInfo.default) ∧
    GlyphInfo.default.id = 0 ∧
    GlyphInfo.default.advance_width_unscaled = 0 ∧
    GlyphInfo.default.visible = false ∧
    (∀ (fi2 : FontImpl) (gi : GlyphInfo) (atlas : Atlas) (fs ppp : ℚ),
      gi.visible = false →
      allocate_glyph fi2 gi atlas fs ppp = .ok (GlyphAllocation.default, fi2, atlas)) := by
  obtain ⟨hden, htab, hthin⟩ := invisible_props hinv
  refine ⟨?_, rfl, rfl, rfl, ?_⟩
  · unfold glyph_info
    simp only [hc]
    rw [ignore_character_of_not_denylisted hden]
    simp only [Bool.false_eq_true, if_false]
    rw [if_neg htab, if_neg hthin]
    unfold glyph_info_rest
    rw [if_pos hinv]
  · intro fi2 gi atlas fs ppp hvis
    unfold allocate_glyph
    rw [if_pos hvis]

theorem C4_invisible_char_law_witness :
    invisible_char '\r' = true ∧
    assocLookup '\r' exFI.glyph_info_cache = none ∧
    glyph_info exFI '\r' = (some GlyphInfo.default, insertInfo exFI '\r' GlyphInfo.default) ∧
    allocate_glyph exFI GlyphInfo.default exAtlas 16 1 =
      .ok (GlyphAllocation.default, exFI, exAtlas) := by
  have h := C4_invisible_char_law exFI '\r' (by decide) (by decide)
  exact ⟨by decide, by decide, h.1, h.2.2.2.2 exFI GlyphInfo.default exAtlas 16 1 rfl⟩

/-- C5: when the space character resolves to glyph info `s`, the tab
character resolves (even with a cold cache, by the lazy recursive space
resolution) to `s` with its unscaled advance replaced by
`TAB_SIZE * s.advance_width_unscaled`, and afterwards the per-face cache
holds entries for both the tab and the space character. -/
theorem C5_tab_advance (fi fi1 : FontImpl) (s : GlyphInfo)
    (htab : assocLookup '\t' fi.glyph_info_cache = none)
    (hsp : glyph_info fi ' ' = (some s, fi1)) :
    ∃ t : GlyphInfo,
      glyph_info fi '\t' = (some t, insertInfo fi1 '\t' t) ∧
      t.id = s.id ∧ t.visible = s.visible ∧
      t.advance_width_unscaled = TAB_SIZE * s.advance_width_unscaled ∧
      assocLookup '\t' (insertInfo fi1 '\t' t).glyph_info_cache = some t ∧
      assocLookup ' ' (insertInfo fi1 '\t' t).glyph_info_cache = some s := by
  have hspace : space_info fi = (some s, fi1) := (glyph_info_space_eq fi).symm.trans hsp
  refine ⟨{ s with advance_width_unscaled := TAB_SIZE * s.advance_width_unscaled },
    ?_, rfl, rfl, rfl, ?_, ?_⟩
  · unfold glyph_info
    simp only [htab]
    rw [ignore_character_of_not_denylisted (by decide)]
    simp only [Bool.false_eq_true, if_false, if_true]
    rw [hspace]
  · simp [insertInfo, assocLookup]
  · have hl := space_info_some_lookup hspace
    simp [insertInfo, assocLookup, hl]

unseal Rat.mul Rat.inv Rat.add Rat.sub in
theorem C5_tab_advance_witness :
    assocLookup '\t' exFI.glyph_info_cache = none ∧
    glyph_info exFI ' ' = (some exGiSpace, insertInfo exFI ' ' exGiSpace) ∧
    (∃ t : GlyphInfo,
      glyph_info exFI '\t' = (some t, insertInfo (insertInfo exFI ' ' exGiSpace) '\t' t) ∧
      t.id = exGiSpace.id ∧ t.visible = exGiSpace.visible ∧
      t.advance_width_unscaled = TAB_SIZE * exGiSpace.advance_width_unscaled ∧
      assocLookup '\t'
        (insertInfo (insertInfo exFI ' ' exGiSpace) '\t' t).glyph_info_cache = some t ∧
      assocLookup ' '
        (insertInfo (insertInfo exFI ' ' exGiSpace) '\t' t).glyph_info_cache
        = some exGiSpace) :=
  ⟨by decide, by rfl,
   C5_tab_advance exFI (insertInfo exFI ' ' exGiSpace) exGiSpace (by decide) (by rfl)⟩

/-- C6: when the space character resolves to glyph info `s` and the face
reports `units_per_em = em`, the thin space (U+2009) resolves to `s` with
its unscaled advance replaced by
`min (em / 6) (s.advance_width_unscaled * (1/2))`. -/
theorem C6_thin_space_advance (fi fi1 : FontImpl) (s : GlyphInfo) (em : ℚ)
    (hem : fi.ab_glyph_font.units_per_em = some em)
    (hthin : assocLookup '\u2009' fi.glyph_info_cache = none)
    (hsp : glyph_info fi ' ' = (some s, fi1)) :
    ∃ t : GlyphInfo,
      glyph_info fi '\u2009' = (some t, insertInfo fi1 '\u2009' t) ∧
      t.id = s.id ∧ t.visible = s.visible ∧
      t.advance_width_unscaled = min (em / 6) (s.advance_width_unscaled * (1/2)) := by
  have hspace : space_info fi = (some s, fi1) := (glyph_info_space_eq fi).symm.trans hsp
  have hfont : fi1.ab_glyph_font = fi.ab_glyph_font := by
    have hf := (space_info_font fi).1
    rw [hspace] at hf
    exact hf
  refine ⟨{ s with advance_width_unscaled := min (em / 6) (s.advance_width_unscaled * (1/2)) },
    ?_, rfl, rfl, rfl⟩
  unfold glyph_info
  simp only [hthin]
  rw [ignore_character_of_not_denylisted (by decide)]
  simp only [Bool.false_eq_true, if_false, if_true]
  rw [hspace]
  simp [hfont, hem]

unseal Rat.mul Rat.inv Rat.add Rat.sub in
theorem C6_thin_space_advance_witness :
    exFI.ab_glyph_font.units_per_em = some 1000 ∧
    assocLookup '\u2009' exFI.glyph_info_cache = none ∧
    (∃ t : GlyphInfo,
      glyph_info exFI '\u2009'
        = (some t, insertInfo (insertInfo exFI ' ' exGiSpace) '\u2009' t) ∧
      t.id = exGiSpace.id ∧ t.visible = exGiSpace.visible ∧
      t.advance_width_unscaled
        = min ((1000:ℚ) / 6) (exGiSpace.advance_width_unscaled * (1/2))) :=
  ⟨rfl, by decide,
   C6_thin_space_advance exFI (insertInfo exFI ' ' exGiSpace) exGiSpace 1000
     rfl (by decide) (by rfl)⟩

/-- C1 (amended): the physical pixel scale `allocate_glyph` uses as its
raster-cache key and rasterization scale is
`round(fontSize × tweak.scale × pixelsPerPoint × heightUnscaled / unitsPerEm)`
(that is, `pt_scale_factor` applied to the point size, then rounded); it
agrees with the claimed `round(fontSize × tweak.scale × pixelsPerPoint)`
exactly when `heightUnscaled = unitsPerEm`.  The scale also determines the
stored advance width. -/
theorem C1_allocate_scale (fi : FontImpl) (gi : GlyphInfo) (atlas : Atlas)
    (fs ppp u S : ℚ)
    (hv : gi.visible = true)
    (hu : fi.ab_glyph_font.units_per_em = some u)
    (hS : allocate_glyph_px_scale fi fs ppp = .ok S)
    (hid : gi.id ≠ 0)
    (hmiss : assocLookup (gi, S) fi.glyph_alloc_cache = none) :
    S = rustRound (fs * fi.tweak.scale * ppp * (fi.ab_glyph_font.height_unscaled / u)) ∧
    (fi.ab_glyph_font.height_unscaled = u → u ≠ 0 →
      S = rustRound (fs * fi.tweak.scale * ppp)) ∧
    ∃ (a : GlyphAllocation) (atlas1 : Atlas),
      allocate_glyph fi gi atlas fs ppp =
        .ok (a, { fi with glyph_alloc_cache := ((gi, S), a) :: fi.glyph_alloc_cache },
          atlas1) ∧
      a.advance_width
        = gi.advance_width_unscaled * S / fi.ab_glyph_font.height_unscaled / ppp := by
  have hSeq : S
      = rustRound (fs * fi.tweak.scale * ppp * (fi.ab_glyph_font.height_unscaled / u)) := by
    unfold allocate_glyph_px_scale pt_scale_factor at hS
    rw [hu] at hS
    simp [Except.map] at hS
    exact hS.symm
  refine ⟨hSeq, ?_, ?_⟩
  · intro hh hne
    rw [hSeq, hh, div_self hne, mul_one]
  · subst hSeq
    unfold allocate_glyph
    rw [hv]
    simp only [Bool.true_eq_false, if_false, hu]
    rw [hmiss, if_neg hid]
    exact ⟨_, _, rfl, rfl⟩

unseal Rat.mul Rat.inv Rat.add Rat.sub in
theorem C1_allocate_scale_witness :
    exGiA.visible = true ∧
    exFI.ab_glyph_font.units_per_em = some 1000 ∧
    allocate_glyph_px_scale exFI 16 1 = .ok 16 ∧
    exGiA.id ≠ 0 ∧
    assocLookup (exGiA, 16) exFI.glyph_alloc_cache = none ∧
    ((16:ℚ) = rustRound (16 * exFI.tweak.scale * 1
        * (exFI.ab_glyph_font.height_unscaled / 1000)) ∧
     (exFI.ab_glyph_font.height_unscaled = 1000 → (1000:ℚ) ≠ 0 →
       (16:ℚ) = rustRound (16 * exFI.tweak.scale * 1)) ∧
     ∃ (a : GlyphAllocation) (atlas1 : Atlas),
       allocate_glyph exFI exGiA exAtlas 16 1 =
         .ok (a, { exFI with glyph_alloc_cache := ((exGiA, 16), a) :: exFI.glyph_alloc_cache },
           atlas1) ∧
       a.advance_width
         = exGiA.advance_width_unscaled * 16 / exFI.ab_glyph_font.height_unscaled / 1) :=
  ⟨rfl, rfl, by decide, by decide, by decide,
   C1_allocate_scale exFI exGiA exAtlas 16 1 1000 16 rfl rfl (by decide) (by decide)
     (by decide)⟩

unseal Rat.mul Rat.inv Rat.add Rat.sub in
/-- C1 counterexample: on a face with `height_unscaled = 2000` and
`units_per_em = 1000` (so `font_scaling = 2`), at `fontSize = 16`,
`tweak.scale = 1`, `pixelsPerPoint = 1`, `allocate_glyph` computes and
caches under the pixel scale 32, not the claimed
`round(16 × 1 × 1) = 16`. -/
theorem C1_allocate_scale_counterexample :
    allocate_glyph_px_scale exFI2 16 1 = .ok 32 ∧
    rustRound (16 * exFI2.tweak.scale * 1) = 16 ∧
    allocate_glyph_px_scale exFI2 16 1 ≠ .ok (rustRound (16 * exFI2.tweak.scale * 1)) ∧
    (match allocate_glyph exFI2 exGiA exAtlas 16 1 with
     | .ok (_, fi1, _) => fi1.glyph_alloc_cache.map (fun e => e.1.2)
     | .error _ => []) = [32] :=
  ⟨by decide, by decide, by decide, by decide⟩

/-- C2 (amended): `pair_kerning` looks the kerning up at the `PxScale`
`pt_scale_factor(round(fontSize × tweak.scale × pixelsPerPoint))` while
`allocate_glyph` rasterizes at
`round(pt_scale_factor(fontSize × tweak.scale × pixelsPerPoint))`; the two
coincide (both equal `round(fontSize × tweak.scale × pixelsPerPoint)`)
whenever `heightUnscaled = unitsPerEm`, but differ on faces where the two
metrics differ. -/
theorem C2_kerning_scale (fi : FontImpl) (fs ppp u : ℚ)
    (hu : fi.ab_glyph_font.units_per_em = some u)
    (hh : fi.ab_glyph_font.height_unscaled = u)
    (hne : u ≠ 0) :
    pair_kerning_px_scale fi fs ppp = allocate_glyph_px_scale fi fs ppp ∧
    pair_kerning_px_scale fi fs ppp = .ok (rustRound (fs * fi.tweak.scale * ppp)) := by
  unfold pair_kerning_px_scale allocate_glyph_px_scale pt_scale_factor
  rw [hu, hh]
  dsimp only []
  rw [div_self hne]
  simp [Except.map, mul_one]

theorem C2_kerning_scale_witness :
    exFI.ab_glyph_font.units_per_em = some 1000 ∧
    exFI.ab_glyph_font.height_unscaled = 1000 ∧
    ((1000:ℚ) ≠ 0) ∧
    (pair_kerning_px_scale exFI 16 1 = allocate_glyph_px_scale exFI 16 1 ∧
     pair_kerning_px_scale exFI 16 1 = .ok (rustRound (16 * exFI.tweak.scale * 1))) :=
  ⟨rfl, rfl, by decide, C2_kerning_scale exFI 16 1 1000 rfl rfl (by decide)⟩

unseal Rat.mul Rat.inv Rat.add Rat.sub in
/-- C2 counterexample: on a face with `height_unscaled = 2000` and
`units_per_em = 1000`, at `fontSize = 1.3`, `tweak.scale = 1`,
`pixelsPerPoint = 1`, `pair_kerning` kerns at `PxScale`
`round(1.3) × 2 = 2` while `allocate_glyph` rasterizes and caches at
`round(1.3 × 2) = 3` — the two scales are not identical. -/
theorem C2_kerning_scale_counterexample :
    pair_kerning_px_scale exFI2 (13/10) 1 = .ok 2 ∧
    allocate_glyph_px_scale exFI2 (13/10) 1 = .ok 3 ∧
    pair_kerning_px_scale exFI2 (13/10) 1 ≠ allocate_glyph_px_scale exFI2 (13/10) 1 :=
  ⟨by decide, by decide, by decide⟩

theorem glyph_info_good_aux {fi fi1 : FontImpl} {c : Char} {g : GlyphInfo}
    (hgood : goodCache fi) (h : glyph_info fi c = (some g, fi1))
    (hv : g.visible = true) : g.id ≠ 0 := by
  unfold glyph_info at h
  revert h
  cases h0 : assocLookup c fi.glyph_info_cache with
  | some g0 =>
    intro h
    simp only [Prod.mk.injEq, Option.some.injEq] at h
    obtain ⟨hg, -⟩ := h
    subst hg
    exact hgood _ (assocLookup_mem h0) hv
  | none =>
    intro h
    by_cases hig : ignore_character fi c
    · rw [if_pos hig] at h
      simp at h
    · rw [if_neg hig] at h
      by_cases htab : c = '\t'
      · rw [if_pos htab] at h
        rcases hs : space_info fi with ⟨os, fi2⟩
        rw [hs] at h
        cases os with
        | none => exact glyph_info_rest_good h hv
        | some s =>
          have hg : ({ s with advance_width_unscaled := TAB_SIZE * s.advance_width_unscaled }
              : GlyphInfo) = g := by
            have := congrArg Prod.fst h
            simpa using this
          have hvs : s.visible = true := by
            rw [← hg] at hv
            simpa using hv
          have hids : s.id ≠ 0 := space_info_good hgood hs hvs
          rw [← hg]
          simpa using hids
      · rw [if_neg htab] at h
        by_cases hthin : c = '\u2009'
        · rw [if_pos hthin] at h
          rcases hs : space_info fi with ⟨os, fi2⟩
          rw [hs] at h
          cases os with
          | none => exact glyph_info_rest_good h hv
          | some s =>
            have hg : ({ s with advance_width_unscaled := min (fi2.ab_glyph_font.units_per_em.getD 1 / 6) (s.advance_width_unscaled * (1/2)) }
                : GlyphInfo) = g := by
              have := congrArg Prod.fst h
              simpa using this
            have hvs : s.visible = true := by
              rw [← hg] at hv
              simpa using hv
            have hids : s.id ≠ 0 := space_info_good hgood hs hvs
            rw [← hg]
            simpa using hids
        · rw [if_neg hthin] at h
          exact glyph_info_rest_good h hv

/-- C7: `allocate_glyph` raises the fatal `id == 0` assertion exactly when it
reaches a raster-cache miss (visible identity, in-range `units_per_em`, no
cached entry for the computed scale key) with identity id 0; and under the
precondition that the face's cache only holds `glyph_info`-produced entries,
`glyph_info` never returns a visible identity with id 0, so identities
obtained from `glyph_info` never trip the assertion. -/
theorem C7_id_zero_assert (fi : FontImpl) (gi : GlyphInfo) (atlas : Atlas)
    (fs ppp : ℚ) (c : Char)
    (hgood : goodCache fi) :
    (allocate_glyph fi gi atlas fs ppp = .error .glyphIdZeroAssert ↔
      (gi.visible = true ∧ ∃ u, fi.ab_glyph_font.units_per_em = some u ∧
        assocLookup (gi, rustRound (fs * fi.tweak.scale * ppp *
          (fi.ab_glyph_font.height_unscaled / u))) fi.glyph_alloc_cache = none ∧
        gi.id = 0)) ∧
    (∀ (g : GlyphInfo) (fi1 : FontImpl),
      glyph_info fi c = (some g, fi1) → g.visible = true → g.id ≠ 0) := by
  constructor
  · unfold allocate_glyph
    by_cases hv : gi.visible = true
    · rw [hv]
      simp only [Bool.true_eq_false, if_false]
      cases hu : fi.ab_glyph_font.units_per_em with
      | none => simp [hu]
      | some u =>
        dsimp only []
        cases hmiss : assocLookup (gi, rustRound (fs * fi.tweak.scale * ppp *
            (fi.ab_glyph_font.height_unscaled / u))) fi.glyph_alloc_cache with
        | some a => simp [hv, hmiss]
        | none =>
          by_cases hid : gi.id = 0
          · simp [hv, hid, hmiss]
          · simp [hv, hid, hmiss]
    · rw [Bool.not_eq_true] at hv
      rw [if_pos hv]
      simp [hv]
  · intro g fi1 h hvg
    exact glyph_info_good_aux hgood h hvg

theorem C7_id_zero_assert_witness :
    goodCache exFI ∧
    allocate_glyph exFI { id := 0, advance_width_unscaled := 0, visible := true }
      exAtlas 16 1 = .error .glyphIdZeroAssert ∧
    (∀ (g : GlyphInfo) (fi1 : FontImpl),
      glyph_info exFI 'A' = (some g, fi1) → g.visible = true → g.id ≠ 0) := by
  have hgood : goodCache exFI := by simp [goodCache, exFI, FontImpl.new]
  have h := C7_id_zero_assert exFI
    { id := 0, advance_width_unscaled := 0, visible := true } exAtlas 16 1 'A' hgood
  exact ⟨hgood, h.1.mpr ⟨rfl, 1000, rfl, rfl, rfl⟩, h.2⟩

/-- C8 (amended): a `glyph_info` call on a fresh character inserts every
`Some` outcome into the per-face cache, keyed by the original character,
before returning; `None` outcomes (denylisted characters and characters the
face does not map) are NOT cached — the face is returned unchanged and such
characters are re-resolved on every later call. -/
theorem C8_cache_insertion (fi : FontImpl) (c : Char)
    (hc : assocLookup c fi.glyph_info_cache = none) :
    (∀ (g : GlyphInfo) (fi1 : FontImpl),
      glyph_info fi c = (some g, fi1) → assocLookup c fi1.glyph_info_cache = some g) ∧
    (∀ fi1 : FontImpl, glyph_info fi c = (none, fi1) → fi1 = fi) := by
  constructor
  · intro g fi1 h
    unfold glyph_info at h
    rw [hc] at h
    by_cases hig : ignore_character fi c
    · rw [if_pos hig] at h
      simp at h
    · rw [if_neg hig] at h
      by_cases htab : c = '\t'
      · rw [if_pos htab] at h
        rcases hs : space_info fi with ⟨os, fi2⟩
        rw [hs] at h
        cases os with
        | none => exact glyph_info_rest_some_lookup h
        | some s =>
          simp only [Prod.mk.injEq, Option.some.injEq] at h
          obtain ⟨hg, hfi⟩ := h
          subst hg
          rw [← hfi]
          simp [insertInfo, assocLookup]
      · rw [if_neg htab] at h
        by_cases hthin : c = '\u2009'
        · rw [if_pos hthin] at h
          rcases hs : space_info fi with ⟨os, fi2⟩
          rw [hs] at h
          cases os with
          | none => exact glyph_info_rest_some_lookup h
          | some s =>
            simp only [Prod.mk.injEq, Option.some.injEq] at h
            obtain ⟨hg, hfi⟩ := h
            subst hg
            rw [← hfi]
            simp [insertInfo, assocLookup]
        · rw [if_neg hthin] at h
          exact glyph_info_rest_some_lookup h
  · intro fi1 h
    unfold glyph_info at h
    rw [hc] at h
    by_cases hig : ignore_character fi c
    · rw [if_pos hig] at h
      simp only [Prod.mk.injEq, true_and] at h
      exact h.symm
    · rw [if_neg hig] at h
      by_cases htab : c = '\t'
      · rw [if_pos htab] at h
        rcases hs : space_info fi with ⟨os, fi2⟩
        rw [hs] at h
        cases os with
        | none =>
          have h2 := glyph_info_rest_none h
          rw [h2]
          exact space_info_none hs
        | some s => simp at h
      · rw [if_neg htab] at h
        by_cases hthin : c = '\u2009'
        · rw [if_pos hthin] at h
          rcases hs : space_info fi with ⟨os, fi2⟩
          rw [hs] at h
          cases os with
          | none =>
            have h2 := glyph_info_rest_none h
            rw [h2]
            exact space_info_none hs
          | some s => simp at h
        · rw [if_neg hthin] at h
          exact glyph_info_rest_none h

theorem C8_cache_insertion_witness :
    assocLookup 'A' exFI.glyph_info_cache = none ∧
    ((∀ (g : GlyphInfo) (fi1 : FontImpl),
      glyph_info exFI 'A' = (some g, fi1) →
        assocLookup 'A' fi1.glyph_info_cache = some g) ∧
     (∀ fi1 : FontImpl, glyph_info exFI 'A' = (none, fi1) → fi1 = exFI)) :=
  ⟨rfl, C8_cache_insertion exFI 'A' rfl⟩

/-- C8 counterexample: a character the face does not map resolves to `None`
and the per-face cache is left EMPTY — the `None` outcome is not inserted
into the cache, contrary to the claim that every outcome is cached. -/
theorem C8_none_not_cached_counterexample :
    glyph_info exFIUnmapped 'x' = (none, exFIUnmapped) ∧
    (glyph_info exFIUnmapped 'x').2.glyph_info_cache = [] :=
  ⟨rfl, rfl⟩

/-- C9 (amended): on a face reporting an out-of-range `units_per_em`,
`pair_kerning`, `row_height`, `ascent` and `allocate_glyph` (for visible
identities) are all fatal through `pt_scale_factor`; but `glyph_info`'s
thin-space resolution is NOT fatal — it substitutes `units_per_em = 1.0`
(`unwrap_or(1.0)`), so the thin space resolves with unscaled advance
`min (1/6) (w × 0.5)`. -/
theorem C9_no_units_per_em (fi fi1 : FontImpl) (s : GlyphInfo)
    (a b : ℕ) (fs ppp : ℚ)
    (hu : fi.ab_glyph_font.units_per_em = none)
    (hthin : assocLookup '\u2009' fi.glyph_info_cache = none)
    (hsp : glyph_info fi ' ' = (some s, fi1)) :
    pair_kerning fi a b fs ppp = .error .unitsPerEmOutOfRange ∧
    row_height fi fs = .error .unitsPerEmOutOfRange ∧
    ascent fi fs = .error .unitsPerEmOutOfRange ∧
    (∀ (gi : GlyphInfo) (atlas : Atlas), gi.visible = true →
      allocate_glyph fi gi atlas fs ppp = .error .unitsPerEmOutOfRange) ∧
    (∃ t : GlyphInfo,
      glyph_info fi '\u2009' = (some t, insertInfo fi1 '\u2009' t) ∧
      t.advance_width_unscaled = min ((1:ℚ) / 6) (s.advance_width_unscaled * (1/2))) := by
  have hspace : space_info fi = (some s, fi1) := (glyph_info_space_eq fi).symm.trans hsp
  have hfont : fi1.ab_glyph_font = fi.ab_glyph_font := by
    have hf := (space_info_font fi).1
    rw [hspace] at hf
    exact hf
  refine ⟨?_, ?_, ?_, ?_, ?_⟩
  · unfold pair_kerning pair_kerning_px_scale pt_scale_factor
    rw [hu]
    rfl
  · unfold row_height pt_scale_factor
    rw [hu]
    rfl
  · unfold ascent pt_scale_factor
    rw [hu]
    rfl
  · intro gi atlas hvis
    unfold allocate_glyph
    rw [hvis]
    simp only [Bool.true_eq_false, if_false, hu]
  · refine ⟨{ s with advance_width_unscaled := min ((1:ℚ)/6) (s.advance_width_unscaled * (1/2)) },
      ?_, rfl⟩
    unfold glyph_info
    simp only [hthin]
    rw [ignore_character_of_not_denylisted (by decide)]
    simp only [Bool.false_eq_true, if_false, if_true]
    rw [hspace]
    simp [hfont, hu]

unseal Rat.mul Rat.inv Rat.add Rat.sub in
theorem C9_no_units_per_em_witness :
    exFINoEm.ab_glyph_font.units_per_em = none ∧
    assocLookup '\u2009' exFINoEm.glyph_info_cache = none ∧
    glyph_info exFINoEm ' ' = (some exGiSpace, insertInfo exFINoEm ' ' exGiSpace) ∧
    (pair_kerning exFINoEm 3 7 16 1 = .error .unitsPerEmOutOfRange ∧
     row_height exFINoEm 16 = .error .unitsPerEmOutOfRange ∧
     ascent exFINoEm 16 = .error .unitsPerEmOutOfRange ∧
     (∀ (gi : GlyphInfo) (atlas : Atlas), gi.visible = true →
       allocate_glyph exFINoEm gi atlas 16 1 = .error .unitsPerEmOutOfRange) ∧
     (∃ t : GlyphInfo,
       glyph_info exFINoEm '\u2009'
         = (some t, insertInfo (insertInfo exFINoEm ' ' exGiSpace) '\u2009' t) ∧
       t.advance_width_unscaled
         = min ((1:ℚ) / 6) (exGiSpace.advance_width_unscaled * (1/2)))) :=
  ⟨rfl, by decide, by rfl,
   C9_no_units_per_em exFINoEm (insertInfo exFINoEm ' ' exGiSpace) exGiSpace 3 7 16 1
     rfl (by decide) (by rfl)⟩

unseal Rat.mul Rat.inv Rat.add Rat.sub in
/-- C9 counterexample: the claim says thin-space resolution is fatal on a
face with an out-of-range `units_per_em`; in fact `glyph_info` succeeds,
falling back to `units_per_em = 1.0` and returning advance
`min (1/6, 0.5 × 500) = 1/6`. -/
theorem C9_thin_space_not_fatal_counterexample :
    exFINoEm.ab_glyph_font.units_per_em = none ∧
    (glyph_info exFINoEm '\u2009').1 =
      some { id := 3, advance_width_unscaled := 1/6, visible := true } :=
  ⟨rfl, by decide⟩

/-- C10: on the fresh-rasterization path, the atlas placement position and
the bounding-box dimensions are stored into `UvRect.min`/`UvRect.max`
through unchecked `as u16` casts, i.e. reduced modulo 2^16: a coordinate
plus dimension beyond 65535 wraps instead of failing. -/
theorem C10_uv_rect_u16_wrap (fi : FontImpl) (gi : GlyphInfo) (atlas : Atlas)
    (fs ppp u : ℚ) (bb : OutlineBounds)
    (hv : gi.visible = true)
    (hu : fi.ab_glyph_font.units_per_em = some u)
    (hmiss : assocLookup (gi, rustRound (fs * fi.tweak.scale * ppp *
        (fi.ab_glyph_font.height_unscaled / u))) fi.glyph_alloc_cache = none)
    (hid : gi.id ≠ 0)
    (hout : fi.ab_glyph_font.outline gi.id (rustRound (fs * fi.tweak.scale * ppp *
        (fi.ab_glyph_font.height_unscaled / u))) = some bb)
    (hw : bb.width ≠ 0) (hh : bb.height ≠ 0) :
    ∃ (a : GlyphAllocation) (fi1 : FontImpl),
      allocate_glyph fi gi atlas fs ppp =
        .ok (a, fi1, { atlas with counter := atlas.counter + 1 }) ∧
      a.uv_rect.min = ((atlas.place atlas.counter (bb.width, bb.height)).1 % 2 ^ 16,
                       (atlas.place atlas.counter (bb.width, bb.height)).2 % 2 ^ 16) ∧
      a.uv_rect.max = (((atlas.place atlas.counter (bb.width, bb.height)).1 + bb.width) % 2 ^ 16,
                       ((atlas.place atlas.counter (bb.width, bb.height)).2 + bb.height) % 2 ^ 16) := by
  unfold allocate_glyph
  rw [hv]
  simp only [Bool.true_eq_false, if_false, hu]
  rw [hmiss, if_neg hid, hout]
  dsimp only []
  rw [if_neg (not_or.mpr ⟨hw, hh⟩)]
  exact ⟨_, _, rfl, rfl, rfl⟩

unseal Rat.mul Rat.inv Rat.add Rat.sub in
theorem C10_uv_rect_u16_wrap_witness :
    exGiA.visible = true ∧
    exFI.ab_glyph_font.units_per_em = some 1000 ∧
    assocLookup (exGiA, rustRound (16 * exFI.tweak.scale * 1 *
        (exFI.ab_glyph_font.height_unscaled / 1000))) exFI.glyph_alloc_cache = none ∧
    exGiA.id ≠ 0 ∧
    exFI.ab_glyph_font.outline exGiA.id (rustRound (16 * exFI.tweak.scale * 1 *
        (exFI.ab_glyph_font.height_unscaled / 1000)))
      = some { min_x := 1, min_y := -2, width := 10, height := 12 } ∧
    (65530 + 10) % 2 ^ 16 = 4 ∧
    (∃ (a : GlyphAllocation) (fi1 : FontImpl),
      allocate_glyph exFI exGiA wrapAtlas 16 1 =
        .ok (a, fi1, { wrapAtlas with counter := wrapAtlas.counter + 1 }) ∧
      a.uv_rect.min = ((wrapAtlas.place wrapAtlas.counter (10, 12)).1 % 2 ^ 16,
                       (wrapAtlas.place wrapAtlas.counter (10, 12)).2 % 2 ^ 16) ∧
      a.uv_rect.max = (((wrapAtlas.place wrapAtlas.counter (10, 12)).1 + 10) % 2 ^ 16,
                       ((wrapAtlas.place wrapAtlas.counter (10, 12)).2 + 12) % 2 ^ 16)) :=
  ⟨rfl, rfl, rfl, by decide, by rfl, by decide,
   C10_uv_rect_u16_wrap exFI exGiA wrapAtlas 16 1 1000
     { min_x := 1, min_y := -2, width := 10, height := 12 }
     rfl rfl rfl (by decide) (by rfl) (by decide) (by decide)⟩

end Egui
